import Mathlib

/-!
Shallow embedding of the Wasatch.PY spectrometer driver core:
`src/wasatch/SpectrometerSettings.py`, `src/wasatch/utils.py` and
`src/wasatch/BLEDevice.py`.  Python floats are modelled as exact rationals
(`ℚ`); Python `None` on a float-valued field is a dedicated constructor;
log emissions are modelled by the level of each message emitted.
-/

/-- Log levels of the `logging` calls the embedded functions perform. -/
inductive LogLevel
  | debug
  | info
  | warning
  | error
deriving DecidableEq, Repr

/-- Value of the Python attribute `eeprom.excitation_nm_float`: it may be
`None`, a NaN float, or an ordinary number (modelled as a rational). -/
inductive FloatVal
  | missing
  | nan
  | num (q : ℚ)
deriving DecidableEq, Repr

/-- The four wavelength-calibration coefficients. -/
structure WavelengthCoeffs where
  c0 : ℚ
  c1 : ℚ
  c2 : ℚ
  c3 : ℚ
deriving DecidableEq, Repr

/-- Modelled from the spec: `EEPROM.py` is not among the sources (only its
users are).  Per spec §3 the EEPROM image decodes a schema-version field
(`format`), serial number, detector name, pixel count, 4 wavelength
coefficients, startup temperature, and the legacy (integer) and
floating-point excitation wavelengths.  Only the fields read by the
embedded code are modelled; the legacy excitation is an integer per the
spec ("legacy and floating excitation wavelength", claims: "legacy integer
excitation value"). -/
structure EEPROM where
  format : ℕ
  serial_number : String
  detector : String
  active_pixels_horizontal : ℕ
  wavelength_coeffs : Option WavelengthCoeffs
  startup_temp_degC : ℤ
  excitation_nm : ℤ
  excitation_nm_float : FloatVal
deriving DecidableEq, Repr

/-- Python `round(q, 0)` (banker's rounding: ties go to the even integer). -/
def pyRound (q : ℚ) : ℤ :=
  let f : ℤ := q.floor
  let r : ℚ := q - f
  if r < 1/2 then f
  else if 1/2 < r then f + 1
  else if f % 2 = 0 then f else f + 1

/-- `SpectrometerSettings.excitation` (SpectrometerSettings.py lines 84-100):
returns the reconciled excitation wavelength together with the levels of the
log messages emitted.  `old` is the legacy integer value, `new` the
floating-point one; `new` wins exactly when it is present, not NaN and lies
in [200, 2500]; a nonzero out-of-range `new` emits one `log.debug` message. -/
def excitation (e : EEPROM) : ℚ × List LogLevel :=
  let old : ℚ := (e.excitation_nm : ℚ)
  match e.excitation_nm_float with
  | FloatVal.missing => (old, [])
  | FloatVal.nan => (old, [])
  | FloatVal.num new =>
    if 200 ≤ new ∧ new ≤ 2500 then (new, [])
    else if new ≠ 0 then (old, [LogLevel.debug])
    else (old, [])

/-- Does `p` occur at the head of `s`?  (helper for Python's `in` on strings) -/
def listStarts : List Char → List Char → Bool
  | [], _ => true
  | _ :: _, [] => false
  | a :: as, b :: bs => a = b && listStarts as bs

/-- Does `p` occur as a contiguous run inside `s`?  (Python `p in s`) -/
def listHasSub (p : List Char) : List Char → Bool
  | [] => listStarts p []
  | c :: cs => listStarts p (c :: cs) || listHasSub p cs

/-- Python `p in s` for strings. -/
def strHasSub (p s : String) : Bool := listHasSub p.toList s.toList

/-- Python `s.upper()` on the character ranges used here. -/
def upperStr (s : String) : String := String.mk (s.toList.map Char.toUpper)

/-- `SpectrometerSettings.default_detector_setpoint_degC`
(SpectrometerSettings.py lines 110-134): EEPROM format ≥ 4 yields the stored
startup temperature; otherwise a fixed substring table over the uppercased
detector name; no match yields `none` (Python `None`). -/
def default_detector_setpoint_degC (e : EEPROM) : Option ℤ :=
  if 4 ≤ e.format then some e.startup_temp_degC
  else
    let det := upperStr e.detector
    if strHasSub "S11511" det then some 10
    else if strHasSub "S10141" det then some (-15)
    else if strHasSub "G9214" det then some (-15)
    else if strHasSub "7031" det then some (-15)
    else none

/-- `utils.generate_wavelengths` (utils.py lines 15-23): cubic wavecal
polynomial evaluated at every pixel index. -/
def generate_wavelengths (pixels : ℕ) (c0 c1 c2 c3 : ℚ) : List ℚ :=
  (List.range pixels).map (fun x =>
    c0 + c1 * (Nat.cast x : ℚ) + c2 * (Nat.cast x : ℚ) * (Nat.cast x : ℚ)
      + c3 * (Nat.cast x : ℚ) * (Nat.cast x : ℚ) * (Nat.cast x : ℚ))

/-- `utils.generate_wavenumbers` (utils.py lines 25-36): empty when the
wavelength list is empty or the excitation is < 1; otherwise one entry per
wavelength, 0 where the wavelength is 0. -/
def generate_wavenumbers (exc : ℚ) (wavelengths : List ℚ) : List ℚ :=
  if wavelengths = [] ∨ exc < 1 then []
  else
    let base : ℚ := 10000000 / exc
    wavelengths.map (fun w => if w ≠ 0 then base - 10000000 / w else 0)

/-- The `SpectrometerSettings` fields touched by `update_wavecal`. -/
structure SpectrometerSettings where
  eeprom : EEPROM
  wavelengths : Option (List ℚ)
  wavenumbers : Option (List ℚ)
  lock_wavecal : Bool
deriving DecidableEq, Repr

/-- `SpectrometerSettings.update_wavecal` (SpectrometerSettings.py lines
168-207): honours the lock flag, clears both derived arrays, requires at
least one pixel, prefers the passed coefficients (storing them into the
EEPROM) over the stored ones, falls back to the identity map when no
coefficients are present, and, when the reconciled excitation is positive,
rounds it into the legacy EEPROM field and derives the wavenumber axis. -/
def update_wavecal (s : SpectrometerSettings) (coeffs : Option WavelengthCoeffs) :
    SpectrometerSettings :=
  if s.lock_wavecal then s
  else
    let s1 := { s with wavelengths := none, wavenumbers := none }
    if s1.eeprom.active_pixels_horizontal < 1 then s1
    else
      let e1 := match coeffs with
                | none => s1.eeprom
                | some c => { s1.eeprom with wavelength_coeffs := some c }
      let cs := match coeffs with
                | none => s1.eeprom.wavelength_coeffs
                | some c => some c
      let wl := match cs with
                | some c => generate_wavelengths e1.active_pixels_horizontal c.c0 c.c1 c.c2 c.c3
                | none => (List.range e1.active_pixels_horizontal).map (fun x => (Nat.cast x : ℚ))
      let s2 := { s1 with eeprom := e1, wavelengths := some wl }
      if 0 < (excitation s2.eeprom).1 then
        let e2 := { s2.eeprom with excitation_nm := pyRound (excitation s2.eeprom).1 }
        { s2 with eeprom := e2,
                  wavenumbers := some (generate_wavenumbers (excitation e2).1 wl) }
      else s2

/-- The wavelength axis `update_wavecal` generates for an EEPROM state:
the cubic polynomial over every pixel when coefficients are present, the
identity mapping otherwise (the fallback at SpectrometerSettings.py
line 197). -/
def wavecalAxis (e : EEPROM) : List ℚ :=
  match e.wavelength_coeffs with
  | some c => generate_wavelengths e.active_pixels_horizontal c.c0 c.c1 c.c2 c.c3
  | none => (List.range e.active_pixels_horizontal).map (fun x => (Nat.cast x : ℚ))

/-- `MAX_RETRIES` (BLEDevice.py line 29). -/
def MAX_RETRIES : ℕ := 4

/-- `THROWAWAY_SPECTRA` (BLEDevice.py line 30). -/
def THROWAWAY_SPECTRA : ℕ := 6

/-- Observable transport and timing events of the acquisition loop:
`sleep` for `asyncio.sleep(delay_ms)`, `writeReq` for the
`SPECTRUM_PIXELS_UUID` write of the starting pixel offset, `readResp` for
the `READ_SPECTRUM_UUID` read, and `retry n` each time the retry counter is
incremented to `n` and a retry round actually proceeds. -/
inductive Ev
  | sleep (ms : ℕ)
  | writeReq (pix : ℕ)
  | readResp
  | retry (n : ℕ)
deriving DecidableEq, Repr

/-- Local variables of the `while pixels_read < pixels` loop of
`BLEDevice.ble_acquire` (BLEDevice.py lines 110-190). -/
structure LoopState where
  spectrum : List ℕ
  pixelsRead : ℕ
  retryCount : ℕ
  requestRetry : Bool
deriving DecidableEq, Repr

/-- Result of one run of the acquisition loop: `failed` is the
`return None` after retries are exhausted, `indexError` the Python
`IndexError` the edge fixup raises when fewer than 5 pixels exist,
`outOfScript st` ends a run whose finite response script is exhausted while
the loop would issue another read (carrying the loop state reached), and
`completed` carries the spectrum stored in the returned `Reading`. -/
inductive Outcome
  | failed
  | indexError
  | outOfScript (st : LoopState)
  | completed (spectrum : List ℕ)
deriving DecidableEq, Repr

/-- Retry-count update at the top of a loop iteration (BLEDevice.py lines
126-127): the count is incremented exactly when a retry was requested. -/
def retryAdvance (st : LoopState) : ℕ :=
  if st.requestRetry then st.retryCount + 1 else st.retryCount

/-- Backoff delay of an iteration whose (updated) retry count is `rc`
(BLEDevice.py lines 132-138): `rc^5` ms, except `integration_time_ms *
THROWAWAY_SPECTRA` when `rc = 1`. -/
def delayFor (intTime rc : ℕ) : ℕ :=
  if rc = 1 then intTime * THROWAWAY_SPECTRA else rc ^ 5

/-- Events emitted by one iteration before the response read: the retry
marker (when a retry proceeds), the backoff sleep, and the packet request
carrying the next unread pixel offset. -/
def preEvents (intTime : ℕ) (st : LoopState) : List Ev :=
  (if st.requestRetry then [Ev.retry (retryAdvance st)] else [])
    ++ [Ev.sleep (delayFor intTime (retryAdvance st)), Ev.writeReq st.pixelsRead]

/-- Big-endian 16-bit first-pixel header of a response
(BLEDevice.py line 165): `(response[0] << 8) | response[1]`. -/
def firstPixel (r : List ℕ) : ℕ :=
  Nat.lor (Nat.shiftLeft (r.headD 0) 8) ((r.drop 1).headD 0)

/-- Inner packet loop of `ble_acquire` (BLEDevice.py lines 175-189): writes
consecutive little-endian 16-bit intensities into the spectrum starting at
`pixels_read`, breaking as soon as the full pixel count is reached (any
trailing pixel bytes are discarded). -/
def writeRun (pixels : ℕ) : List ℕ → List ℕ → ℕ → List ℕ × ℕ
  | lo :: hi :: rest, spec, pr =>
    let spec' := spec.set pr (Nat.lor (Nat.shiftLeft hi 8) lo)
    let pr' := pr + 1
    if pr' = pixels then (spec', pr')
    else writeRun pixels rest spec' pr'
  | _, spec, pr => (spec, pr)

/-- First edge fixup of the completed spectrum (BLEDevice.py lines 191-192):
`for i in range(4): spectrum[i] = spectrum[4]`. -/
def fixupFront (s : List ℕ) : List ℕ :=
  (List.range 4).foldl (fun acc i => acc.set i (acc.getD 4 0)) s

/-- Complete edge fixup (BLEDevice.py lines 191-194): overwrite indices 0-3
with the value at index 4, then overwrite the last index with the value then
at the second-to-last index. -/
def fixup (pixels : ℕ) (s : List ℕ) : List ℕ :=
  (fixupFront s).set (pixels - 1) ((fixupFront s).getD (pixels - 2) 0)

/-- Acquisition loop of `BLEDevice.ble_acquire` (BLEDevice.py lines
117-199), run against a finite script of responses (one response per
`READ_SPECTRUM_UUID` read).  The disconnect flags are modelled as clear
throughout a run (the separate `ble_acquire` entry model handles the
disconnect-event early return).  Returns the outcome together with the
emitted event trace. -/
def loopGo (pixels intTime : ℕ) : List (List ℕ) → LoopState → Outcome × List Ev
  | resps, st =>
    if pixels ≤ st.pixelsRead then
      if 5 ≤ pixels then (Outcome.completed (fixup pixels st.spectrum), [])
      else (Outcome.indexError, [])
    else if st.requestRetry ∧ MAX_RETRIES < retryAdvance st then
      (Outcome.failed, [])
    else
      match resps with
      | [] =>
        (Outcome.outOfScript { st with retryCount := retryAdvance st, requestRetry := false },
         preEvents intTime st)
      | r :: rest =>
        if r.length < 2 ∨ r.length % 2 ≠ 0 then
          let next := loopGo pixels intTime rest
            { st with retryCount := retryAdvance st, requestRetry := true }
          (next.1, preEvents intTime st ++ [Ev.readResp] ++ next.2)
        else if 2048 < firstPixel r ∨ firstPixel r < 0 then
          let next := loopGo pixels intTime rest
            { st with retryCount := retryAdvance st, requestRetry := true }
          (next.1, preEvents intTime st ++ [Ev.readResp] ++ next.2)
        else
          let wr := writeRun pixels (r.drop 2) st.spectrum st.pixelsRead
          let next := loopGo pixels intTime rest
            { spectrum := wr.1, pixelsRead := wr.2,
              retryCount := retryAdvance st, requestRetry := false }
          (next.1, preEvents intTime st ++ [Ev.readResp] ++ next.2)

/-- One full run of the acquisition loop from the initial state
(BLEDevice.py lines 110-118): zero-filled spectrum of the configured pixel
count, nothing read, no retries pending. -/
def bleAcquireLoop (pixels intTime : ℕ) (resps : List (List ℕ)) : Outcome × List Ev :=
  loopGo pixels intTime resps
    { spectrum := List.replicate pixels 0, pixelsRead := 0, retryCount := 0, requestRetry := false }

/-- The loop state after one response is consumed (same branches as
`loopGo` on `r`): a malformed or over-range response flags a retry and
leaves the spectrum and pixels-read count untouched; a valid response folds
its pixel run into the spectrum and clears the retry flag. -/
def stepState (pixels : ℕ) (r : List ℕ) (st : LoopState) : LoopState :=
  if r.length < 2 ∨ r.length % 2 ≠ 0 then
    { st with retryCount := retryAdvance st, requestRetry := true }
  else if 2048 < firstPixel r ∨ firstPixel r < 0 then
    { st with retryCount := retryAdvance st, requestRetry := true }
  else
    { spectrum := (writeRun pixels (r.drop 2) st.spectrum st.pixelsRead).1,
      pixelsRead := (writeRun pixels (r.drop 2) st.spectrum st.pixelsRead).2,
      retryCount := retryAdvance st, requestRetry := false }

/-- `true` exactly on retry events. -/
def isRetryEv : Ev → Bool
  | Ev.retry _ => true
  | _ => false

/-- Number of retry rounds recorded in a trace. -/
def countRetry (evs : List Ev) : ℕ := evs.countP isRetryEv

/-- Device-object fields of `BLEDevice` read or written by `acquire_data`
and the entry of `ble_acquire` (BLEDevice.py lines 92-107).  The attribute
`perfroming_acquire` is the misspelled name the source actually assigns at
lines 97 and 100; the guard at line 93 reads the differently named
`performing_acquire`. -/
structure BLEState where
  performing_acquire : Bool
  perfroming_acquire : Bool
  disconnect : Bool
  disconnect_event : Bool
  session_reading_count : ℕ
deriving DecidableEq, Repr

/-- Entry of `BLEDevice.ble_acquire` (BLEDevice.py lines 104-107): `None`
when the disconnect event is set, otherwise `True` — the `return True` at
line 107 precedes the whole protocol exchange (lines 108-199), so no
transport event is ever emitted. -/
def ble_acquire (st : BLEState) : Option Bool × List Ev :=
  if st.disconnect_event then (none, [])
  else (some true, [])

/-- `BLEDevice.acquire_data` (BLEDevice.py lines 92-102): returns `True`
immediately when `performing_acquire` is set; returns `None` when
disconnecting; otherwise sets the (misspelled) `perfroming_acquire`
attribute, bumps the session counter, runs `ble_acquire`, clears the
misspelled attribute and returns `ble_acquire`'s result.  The result is the
returned value, the updated device state, and the transport events. -/
def acquire_data (st : BLEState) : Option Bool × BLEState × List Ev :=
  if st.performing_acquire then (some true, st, [])
  else if st.disconnect then (none, st, [])
  else
    let st1 := { st with perfroming_acquire := true,
                         session_reading_count := st.session_reading_count + 1 }
    let r := ble_acquire st1
    let st2 := { st1 with perfroming_acquire := false }
    (r.1, st2, r.2)

/-- Concrete EEPROM states for witnesses: only the format, detector,
startup temperature and the two excitation fields vary; the remaining
fields are fixed neutral values. -/
def sampleEEPROM (fm : ℕ) (det : String) (stemp legacy : ℤ) (fl : FloatVal) : EEPROM :=
  { format := fm
    serial_number := ""
    detector := det
    active_pixels_horizontal := 0
    wavelength_coeffs := none
    startup_temp_degC := stemp
    excitation_nm := legacy
    excitation_nm_float := fl }

/-- Concrete EEPROM states for calibration witnesses: pixel count,
wavelength coefficients and the two excitation fields vary. -/
def calEEPROM (pixels : ℕ) (cs : Option WavelengthCoeffs) (legacy : ℤ) (fl : FloatVal) :
    EEPROM :=
  { format := 0
    serial_number := ""
    detector := ""
    active_pixels_horizontal := pixels
    wavelength_coeffs := cs
    startup_temp_degC := 0
    excitation_nm := legacy
    excitation_nm_float := fl }

/-- Concrete settings states for calibration witnesses: fresh derived
arrays, wavecal unlocked. -/
def calSettings (pixels : ℕ) (cs : Option WavelengthCoeffs) (legacy : ℤ) (fl : FloatVal) :
    SpectrometerSettings :=
  { eeprom := calEEPROM pixels cs legacy fl
    wavelengths := none
    wavenumbers := none
    lock_wavecal := false }

/-! ## Helper lemmas -/

theorem getD_set_self (l : List ℕ) (i v : ℕ) (h : i < l.length) :
    (l.set i v).getD i 0 = v := by
  simp [List.getD_eq_getElem?_getD, List.getElem?_set, h]

theorem getD_set_ne (l : List ℕ) {i j : ℕ} (v : ℕ) (h : i ≠ j) :
    (l.set i v).getD j 0 = l.getD j 0 := by
  simp [List.getD_eq_getElem?_getD, List.getElem?_set, h]

/-- Every loop iteration that is not an exit and not a retry-exhaustion
abort emits its bookkeeping events (optional retry marker, backoff sleep,
packet request) first, whatever the rest of the run does. -/
theorem loopGo_trace_shape (pixels intTime : ℕ) (resps : List (List ℕ)) (st : LoopState)
    (h1 : st.pixelsRead < pixels)
    (h2 : ¬(st.requestRetry ∧ MAX_RETRIES < retryAdvance st)) :
    ∃ tl, (loopGo pixels intTime resps st).2 = preEvents intTime st ++ tl := by
  cases resps with
  | nil =>
    refine ⟨[], ?_⟩
    simp [loopGo, Nat.not_le.mpr h1, h2]
  | cons r rest =>
    by_cases hb : r.length < 2 ∨ r.length % 2 = 1
    · refine ⟨[Ev.readResp] ++ (loopGo pixels intTime rest
        { st with retryCount := retryAdvance st, requestRetry := true }).2, ?_⟩
      simp [loopGo, Nat.not_le.mpr h1, h2, hb, List.append_assoc]
    · by_cases hf : 2048 < firstPixel r
      · refine ⟨[Ev.readResp] ++ (loopGo pixels intTime rest
          { st with retryCount := retryAdvance st, requestRetry := true }).2, ?_⟩
        simp [loopGo, Nat.not_le.mpr h1, h2, hb, hf, List.append_assoc]
      · refine ⟨[Ev.readResp] ++ (loopGo pixels intTime rest
          { spectrum := (writeRun pixels (r.drop 2) st.spectrum st.pixelsRead).1,
            pixelsRead := (writeRun pixels (r.drop 2) st.spectrum st.pixelsRead).2,
            retryCount := retryAdvance st, requestRetry := false }).2, ?_⟩
        simp [loopGo, Nat.not_le.mpr h1, h2, hb, hf, List.append_assoc]

theorem ratFloor_eq_floor (q : ℚ) : q.floor = ⌊q⌋ := by
  rw [Rat.floor_def', ← Rat.floor_def]

theorem pyRound_int (n : ℤ) : pyRound (n : ℚ) = n := by
  simp [pyRound, ratFloor_eq_floor, Int.floor_intCast]

/-- The reconciled excitation only depends on the two excitation fields,
and re-storing its own rounded value into the legacy field (whatever
happens to the coefficient field) leaves it, and the messages it emits,
unchanged: either the floating value wins, in which case the legacy field
is not consulted, or the legacy integer wins and rounding it is the
identity. -/
theorem excitation_after_round (e : EEPROM) (cs : Option WavelengthCoeffs) :
    excitation { format := e.format
                 serial_number := e.serial_number
                 detector := e.detector
                 active_pixels_horizontal := e.active_pixels_horizontal
                 wavelength_coeffs := cs
                 startup_temp_degC := e.startup_temp_degC
                 excitation_nm := pyRound (excitation e).1
                 excitation_nm_float := e.excitation_nm_float }
      = excitation e := by
  cases hf : e.excitation_nm_float with
  | missing => simp [excitation, hf, pyRound_int]
  | nan => simp [excitation, hf, pyRound_int]
  | num q =>
    by_cases hq : 200 ≤ q ∧ q ≤ 2500
    · simp [excitation, hf, hq]
    · by_cases hz : q = 0
      · subst hz
        norm_num [excitation, hf, pyRound_int]
      · simp [excitation, hf, hq, hz, pyRound_int]

/-- A positive reconciled excitation is at least 1: it is either the legacy
integer (so positivity forces ≥ 1) or a floating value in [200, 2500]. -/
theorem excitation_pos_ge_one (e : EEPROM) (h : 0 < (excitation e).1) :
    1 ≤ (excitation e).1 := by
  have hleg : ∀ hv : (excitation e).1 = (e.excitation_nm : ℚ), 1 ≤ (excitation e).1 := by
    intro hv
    rw [hv] at h ⊢
    have h0 : (0 : ℤ) < e.excitation_nm := by exact_mod_cast h
    have h1 : (1 : ℤ) ≤ e.excitation_nm := by omega
    exact_mod_cast h1
  rcases hf : e.excitation_nm_float with _ | _ | q
  · exact hleg (by simp [excitation, hf])
  · exact hleg (by simp [excitation, hf])
  · by_cases hq : 200 ≤ q ∧ q ≤ 2500
    · have hv : (excitation e).1 = q := by simp [excitation, hf, hq]
      rw [hv]
      linarith [hq.1]
    · refine hleg ?_
      by_cases hz : q = 0
      · subst hz
        norm_num [excitation, hf]
      · simp [excitation, hf, hq, hz]

/-- With the lock clear and at least one pixel, `update_wavecal` (called
without explicit coefficients) stores the generated wavelength axis: the
cubic when coefficients are present, the identity otherwise. -/
theorem update_wavecal_wavelengths_eq (s : SpectrometerSettings)
    (hlock : s.lock_wavecal = false) (hpix : 1 ≤ s.eeprom.active_pixels_horizontal) :
    (update_wavecal s none).wavelengths = some (wavecalAxis s.eeprom) := by
  have hnl : ¬(s.eeprom.active_pixels_horizontal < 1) := by omega
  cases hc : s.eeprom.wavelength_coeffs with
  | none =>
    by_cases hexc : 0 < (excitation s.eeprom).1 <;>
      simp [update_wavecal, wavecalAxis, hlock, hnl, hc, hexc]
  | some c =>
    by_cases hexc : 0 < (excitation s.eeprom).1 <;>
      simp [update_wavecal, wavecalAxis, hlock, hnl, hc, hexc]

/-- With the lock clear and at least one pixel, `update_wavecal` (called
without explicit coefficients) stores the wavenumber axis iff the
reconciled excitation is positive, computing it from the unchanged
reconciled excitation and the freshly generated wavelength axis. -/
theorem update_wavecal_wavenumbers_eq (s : SpectrometerSettings)
    (hlock : s.lock_wavecal = false) (hpix : 1 ≤ s.eeprom.active_pixels_horizontal) :
    (update_wavecal s none).wavenumbers
      = if 0 < (excitation s.eeprom).1
        then some (generate_wavenumbers (excitation s.eeprom).1 (wavecalAxis s.eeprom))
        else none := by
  have hnl : ¬(s.eeprom.active_pixels_horizontal < 1) := by omega
  cases hc : s.eeprom.wavelength_coeffs with
  | none =>
    by_cases hexc : 0 < (excitation s.eeprom).1 <;>
      simp [update_wavecal, wavecalAxis, hlock, hnl, hc, hexc, excitation_after_round]
  | some c =>
    by_cases hexc : 0 < (excitation s.eeprom).1 <;>
      simp [update_wavecal, wavecalAxis, hlock, hnl, hc, hexc, excitation_after_round]

/-! ## C2 — excitation reconciliation -/

/-- C2 counterexample: with legacy 785 and floating 9999 (nonzero, out of
range) the reconciled excitation is the legacy 785, but the single message
emitted is at `debug` level — no warning-level message is emitted, contrary
to the claim's "with a warning emitted". -/
theorem excitation_no_warning_counterexample :
    (excitation (sampleEEPROM 0 "" 0 785 (FloatVal.num 9999))).1 = 785
    ∧ LogLevel.warning ∉ (excitation (sampleEEPROM 0 "" 0 785 (FloatVal.num 9999))).2
    ∧ (excitation (sampleEEPROM 0 "" 0 785 (FloatVal.num 9999))).2 = [LogLevel.debug] := by
  refine ⟨by decide, by decide, by decide⟩

/-- C2 (amended): `excitation()` returns the floating-point value iff it is
present, finite and lies in [200, 2500]; otherwise it returns the legacy
integer value, and when the floating value is nonzero and out of range a
single debug-level log message (not a warning) is emitted. -/
theorem excitation_reconciliation (e : EEPROM) :
    (∀ q : ℚ, e.excitation_nm_float = FloatVal.num q → 200 ≤ q → q ≤ 2500 →
        excitation e = (q, []))
    ∧ (∀ q : ℚ, e.excitation_nm_float = FloatVal.num q → ¬(200 ≤ q ∧ q ≤ 2500) → q ≠ 0 →
        excitation e = ((e.excitation_nm : ℚ), [LogLevel.debug]))
    ∧ (∀ q : ℚ, e.excitation_nm_float = FloatVal.num q → ¬(200 ≤ q ∧ q ≤ 2500) → q = 0 →
        excitation e = ((e.excitation_nm : ℚ), []))
    ∧ (e.excitation_nm_float = FloatVal.missing ∨ e.excitation_nm_float = FloatVal.nan →
        excitation e = ((e.excitation_nm : ℚ), [])) := by
  refine ⟨?_, ?_, ?_, ?_⟩
  · intro q hq h1 h2
    simp [excitation, hq, h1, h2]
  · intro q hq h1 h2
    simp [excitation, hq, h1, h2]
  · intro q hq h1 h2
    subst h2
    simp [excitation, hq, h1]
  · rintro (hq | hq) <;> simp [excitation, hq]

/-- C2 witness: the three reconciliation examples of the claim, evaluated
through `excitation_reconciliation`: legacy 785 with floating 0 yields 785,
legacy 785 with floating 830.4 yields 830.4, legacy 785 with floating 9999
yields 785 with a debug-level message. -/
theorem excitation_reconciliation_witness :
    excitation (sampleEEPROM 0 "" 0 785 (FloatVal.num 0)) = (785, [])
    ∧ excitation (sampleEEPROM 0 "" 0 785 (FloatVal.num (4152/5))) = (4152/5, [])
    ∧ excitation (sampleEEPROM 0 "" 0 785 (FloatVal.num 9999)) = (785, [LogLevel.debug]) := by
  refine ⟨?_, ?_, ?_⟩
  · exact (excitation_reconciliation _).2.2.1 0 rfl (by norm_num) rfl
  · exact (excitation_reconciliation _).1 (4152/5) rfl (by norm_num) (by norm_num)
  · exact (excitation_reconciliation _).2.1 9999 rfl (by norm_num) (by norm_num)

/-! ## C9 — default detector setpoint -/

/-- C9: `default_detector_setpoint_degC` returns the stored startup
temperature whenever the EEPROM format is ≥ 4; for format < 4 it consults
the fixed substring table (S11511 → 10, S10141 → −15, G9214 → −15,
7031 → −15, in source order) over the uppercased detector name, and when no
entry matches it returns `none`, never a numeric default. -/
theorem default_setpoint_spec (e : EEPROM) :
    (4 ≤ e.format → default_detector_setpoint_degC e = some e.startup_temp_degC)
    ∧ (e.format < 4 → strHasSub "S11511" (upperStr e.detector) = true →
        default_detector_setpoint_degC e = some 10)
    ∧ (e.format < 4 → strHasSub "S11511" (upperStr e.detector) = false →
        strHasSub "S10141" (upperStr e.detector) = true →
        default_detector_setpoint_degC e = some (-15))
    ∧ (e.format < 4 → strHasSub "S11511" (upperStr e.detector) = false →
        strHasSub "S10141" (upperStr e.detector) = false →
        strHasSub "G9214" (upperStr e.detector) = true →
        default_detector_setpoint_degC e = some (-15))
    ∧ (e.format < 4 → strHasSub "S11511" (upperStr e.detector) = false →
        strHasSub "S10141" (upperStr e.detector) = false →
        strHasSub "G9214" (upperStr e.detector) = false →
        strHasSub "7031" (upperStr e.detector) = true →
        default_detector_setpoint_degC e = some (-15))
    ∧ (e.format < 4 → strHasSub "S11511" (upperStr e.detector) = false →
        strHasSub "S10141" (upperStr e.detector) = false →
        strHasSub "G9214" (upperStr e.detector) = false →
        strHasSub "7031" (upperStr e.detector) = false →
        default_detector_setpoint_degC e = none) := by
  refine ⟨?_, ?_, ?_, ?_, ?_, ?_⟩
  · intro h
    simp [default_detector_setpoint_degC, h]
  all_goals
    intro h
    simp only [default_detector_setpoint_degC, Nat.not_le.mpr h, if_false]
    intros
    simp_all

/-- C9 witness: a format-5 EEPROM uses the stored startup temperature; a
format-3 EEPROM with detector "s11511x" maps to 10; one with detector
"Hamamatsu S10141" maps to −15; one with unknown detector "zzz" yields
`none`. -/
theorem default_setpoint_spec_witness :
    default_detector_setpoint_degC (sampleEEPROM 5 "s11511x" 42 0 FloatVal.missing) = some 42
    ∧ default_detector_setpoint_degC (sampleEEPROM 3 "s11511x" 42 0 FloatVal.missing) = some 10
    ∧ default_detector_setpoint_degC (sampleEEPROM 3 "Hamamatsu S10141" 42 0 FloatVal.missing)
        = some (-15)
    ∧ default_detector_setpoint_degC (sampleEEPROM 3 "zzz" 42 0 FloatVal.missing) = none := by
  refine ⟨?_, ?_, ?_, ?_⟩
  · exact (default_setpoint_spec _).1 (by norm_num [sampleEEPROM])
  · exact (default_setpoint_spec _).2.1 (by norm_num [sampleEEPROM]) (by decide)
  · exact (default_setpoint_spec _).2.2.1 (by norm_num [sampleEEPROM]) (by decide) (by decide)
  · exact (default_setpoint_spec _).2.2.2.2.2 (by norm_num [sampleEEPROM]) (by decide) (by decide)
      (by decide) (by decide)

/-! ## C10 — acquire path performs no transport I/O -/

/-- C10: when no acquisition is flagged in flight, no disconnect was
requested and the disconnect event is clear, `acquire_data` returns `True`
while emitting no transport event at all, because `ble_acquire` returns
`True` (with an empty event trace) before any protocol code whenever the
disconnect event is clear. -/
theorem acquire_data_no_io (st : BLEState)
    (h1 : st.performing_acquire = false) (h2 : st.disconnect = false)
    (h3 : st.disconnect_event = false) :
    (acquire_data st).1 = some true ∧ (acquire_data st).2.2 = []
    ∧ (∀ s : BLEState, s.disconnect_event = false → ble_acquire s = (some true, [])) := by
  refine ⟨?_, ?_, ?_⟩
  · simp [acquire_data, ble_acquire, h1, h2, h3]
  · simp [acquire_data, ble_acquire, h1, h2, h3]
  · intro s hs
    simp [ble_acquire, hs]

/-- C10 witness: `acquire_data_no_io` applied to the freshly initialised
device state. -/
theorem acquire_data_no_io_witness :
    (acquire_data { performing_acquire := false, perfroming_acquire := false,
                    disconnect := false, disconnect_event := false,
                    session_reading_count := 0 }).1 = some true
    ∧ (acquire_data { performing_acquire := false, perfroming_acquire := false,
                      disconnect := false, disconnect_event := false,
                      session_reading_count := 0 }).2.2 = [] := by
  have h := acquire_data_no_io
    { performing_acquire := false, perfroming_acquire := false,
      disconnect := false, disconnect_event := false, session_reading_count := 0 }
    rfl rfl rfl
  exact ⟨h.1, h.2.1⟩

/-! ## C8 — at-most-one-in-flight collision guard -/

/-- C8: a second acquisition request never starts a parallel protocol
exchange.  With the in-flight flag set, `acquire_data` returns `True`
immediately with no event and no state change; in every non-disconnecting
state it returns `True` with an empty transport trace (no trigger write,
packet request or read); and no call ever changes the `performing_acquire`
flag (the source assigns the misspelled `perfroming_acquire` instead). -/
theorem acquire_data_collision_guard (st : BLEState) :
    (st.performing_acquire = true → acquire_data st = (some true, st, []))
    ∧ (st.disconnect = false → st.disconnect_event = false →
        (acquire_data st).1 = some true ∧ (acquire_data st).2.2 = [])
    ∧ (acquire_data st).2.1.performing_acquire = st.performing_acquire := by
  refine ⟨?_, ?_, ?_⟩
  · intro h
    simp [acquire_data, h]
  · intro h2 h3
    cases hp : st.performing_acquire <;>
      simp [acquire_data, ble_acquire, hp, h2, h3]
  · cases hp : st.performing_acquire <;> cases hd : st.disconnect <;>
      simp [acquire_data, ble_acquire, hp, hd]

/-- C8 witness: `acquire_data_collision_guard` at a state with an
acquisition flagged in flight — the second request returns `True`, performs
no transport event and leaves the state unchanged. -/
theorem acquire_data_collision_guard_witness :
    acquire_data { performing_acquire := true, perfroming_acquire := true,
                   disconnect := false, disconnect_event := false,
                   session_reading_count := 3 }
      = (some true,
         { performing_acquire := true, perfroming_acquire := true,
           disconnect := false, disconnect_event := false,
           session_reading_count := 3 }, []) :=
  (acquire_data_collision_guard _).1 rfl

/-! ## C5 — retry backoff delays -/

/-- C5: in the iteration performing retry `n` (the retry count was just
incremented to `n` and `n` does not exceed the retry limit), the delay
slept before re-requesting is `integration_time_ms * 6` ms for the first
retry and `n^5` ms for every later retry. -/
theorem ble_backoff_delay (pixels intTime n : ℕ) (resps : List (List ℕ)) (st : LoopState)
    (h1 : st.pixelsRead < pixels) (h2 : st.requestRetry = true)
    (h3 : st.retryCount + 1 = n) (h4 : n ≤ MAX_RETRIES) :
    ∃ tl, (loopGo pixels intTime resps st).2
      = Ev.retry n :: Ev.sleep (if n = 1 then intTime * 6 else n ^ 5) :: tl := by
  have hadv : retryAdvance st = n := by simp [retryAdvance, h2, h3]
  have h2' : ¬(st.requestRetry ∧ MAX_RETRIES < retryAdvance st) := by
    rw [hadv]
    intro h
    exact absurd h.2 (Nat.not_lt.mpr h4)
  obtain ⟨tl, htl⟩ := loopGo_trace_shape pixels intTime resps st h1 h2'
  refine ⟨Ev.writeReq st.pixelsRead :: tl, ?_⟩
  rw [htl]
  simp [preEvents, h2, hadv, delayFor, THROWAWAY_SPECTRA]

/-- C5 witness: with integration time 7 ms, the first retry sleeps
7 × 6 = 42 ms and the second retry sleeps 2^5 = 32 ms. -/
theorem ble_backoff_delay_witness :
    (∃ tl, (loopGo 6 7 [] ⟨List.replicate 6 0, 0, 0, true⟩).2
      = Ev.retry 1 :: Ev.sleep 42 :: tl)
    ∧ (∃ tl, (loopGo 6 7 [] ⟨List.replicate 6 0, 0, 1, true⟩).2
      = Ev.retry 2 :: Ev.sleep 32 :: tl) := by
  constructor
  · have h := ble_backoff_delay 6 7 1 [] ⟨List.replicate 6 0, 0, 0, true⟩
      (by norm_num) rfl rfl (by norm_num [MAX_RETRIES])
    simpa using h
  · have h := ble_backoff_delay 6 7 2 [] ⟨List.replicate 6 0, 0, 1, true⟩
      (by norm_num) rfl rfl (by norm_num [MAX_RETRIES])
    simpa using h

/-! ## C6 — response validation -/

/-- C6 counterexample: with 10 configured pixels the maximum valid pixel
index is 9, yet a response whose big-endian first-pixel header decodes to
1024 (well above 9, but not above the hard-coded 2048) is accepted: its
pixel intensity 7 is written into the spectrum (`pixelsRead` becomes 1 and
`spectrum[0] = 7`) and no retry is flagged, contrary to the claim that any
first-pixel value above the maximum valid pixel index triggers a retry and
never contributes pixels. -/
theorem first_pixel_gate_counterexample :
    firstPixel [4, 0, 7, 0] = 1024
    ∧ (loopGo 10 5 [[4, 0, 7, 0]]
        { spectrum := List.replicate 10 0, pixelsRead := 0, retryCount := 0,
          requestRetry := false }).1
      = Outcome.outOfScript
        { spectrum := [7, 0, 0, 0, 0, 0, 0, 0, 0, 0], pixelsRead := 1, retryCount := 0,
          requestRetry := false } := by
  exact ⟨by decide, by decide⟩

/-- C6 (amended): responses are validated strictly in order — first, any
response shorter than the 2-byte header or of odd byte length is rejected
(whatever its first bytes decode to): the loop re-enters with the spectrum
and pixels-read count untouched and the retry flag set, emitting only the
bookkeeping events and the read; second, a response passing the length
check whose big-endian 16-bit first-pixel header exceeds the fixed constant
2048 (not the configured maximum valid pixel index; the two-byte decode is
never negative) is rejected the same way.  No rejected response contributes
pixels to the spectrum. -/
theorem response_validation_order (pixels intTime : ℕ) (r : List ℕ) (rest : List (List ℕ))
    (st : LoopState) (h1 : st.pixelsRead < pixels)
    (h2 : st.requestRetry = true → st.retryCount < MAX_RETRIES) :
    ((r.length < 2 ∨ r.length % 2 = 1) →
      loopGo pixels intTime (r :: rest) st
        = ((loopGo pixels intTime rest
              { st with retryCount := retryAdvance st, requestRetry := true }).1,
           preEvents intTime st ++ [Ev.readResp]
             ++ (loopGo pixels intTime rest
                  { st with retryCount := retryAdvance st, requestRetry := true }).2))
    ∧ (¬(r.length < 2 ∨ r.length % 2 = 1) → 2048 < firstPixel r →
      loopGo pixels intTime (r :: rest) st
        = ((loopGo pixels intTime rest
              { st with retryCount := retryAdvance st, requestRetry := true }).1,
           preEvents intTime st ++ [Ev.readResp]
             ++ (loopGo pixels intTime rest
                  { st with retryCount := retryAdvance st, requestRetry := true }).2)) := by
  have h2' : ¬(st.requestRetry ∧ MAX_RETRIES < retryAdvance st) := by
    rintro ⟨ha, hlt⟩
    have := h2 ha
    simp [retryAdvance, ha] at hlt
    omega
  constructor
  · intro hb
    simp [loopGo, Nat.not_le.mpr h1, h2', hb, List.append_assoc]
  · intro hb hf
    simp [loopGo, Nat.not_le.mpr h1, h2', hb, hf, List.append_assoc]

/-- C6 witness: a 3-byte (odd) response is rejected with the state
untouched and the retry flag set, and a well-formed response whose header
decodes to 2049 > 2048 is rejected the same way. -/
theorem response_validation_order_witness :
    loopGo 6 7 [[0, 0, 5]] ⟨List.replicate 6 0, 0, 0, false⟩
      = ((loopGo 6 7 [] ⟨List.replicate 6 0, 0, 0, true⟩).1,
         preEvents 7 ⟨List.replicate 6 0, 0, 0, false⟩ ++ [Ev.readResp]
           ++ (loopGo 6 7 [] ⟨List.replicate 6 0, 0, 0, true⟩).2)
    ∧ loopGo 6 7 [[8, 1, 5, 0]] ⟨List.replicate 6 0, 0, 0, false⟩
      = ((loopGo 6 7 [] ⟨List.replicate 6 0, 0, 0, true⟩).1,
         preEvents 7 ⟨List.replicate 6 0, 0, 0, false⟩ ++ [Ev.readResp]
           ++ (loopGo 6 7 [] ⟨List.replicate 6 0, 0, 0, true⟩).2) := by
  constructor
  · exact (response_validation_order 6 7 [0, 0, 5] [] _ (by norm_num)
      (by intro h; simp at h)).1 (by norm_num)
  · exact (response_validation_order 6 7 [8, 1, 5, 0] [] _ (by norm_num)
      (by intro h; simp at h)).2 (by norm_num) (by decide)

/-! ## C7 — edge-pixel fixup -/

/-- Pointwise characterisation of the first fixup pass: indices 0-3 hold
the original value at index 4 (when the list is long enough), all other
indices are untouched, and the length is preserved. -/
theorem fixupFront_getD (s : List ℕ) :
    (∀ i, i < 4 → 4 < s.length → (fixupFront s).getD i 0 = s.getD 4 0)
    ∧ (∀ i, 4 ≤ i → (fixupFront s).getD i 0 = s.getD i 0)
    ∧ (fixupFront s).length = s.length := by
  refine ⟨?_, ?_, ?_⟩
  · intro i hi hlen
    have h0 : 0 < s.length := by omega
    have h1 : 1 < s.length := by omega
    have h2 : 2 < s.length := by omega
    have h3 : 3 < s.length := by omega
    interval_cases i <;>
      simp [fixupFront, List.foldl, List.getD_eq_getElem?_getD, List.getElem?_set,
        List.length_set, h0, h1, h2, h3, hlen]
  · intro i hi
    have h0 : (0 : ℕ) ≠ i := by omega
    have h1 : (1 : ℕ) ≠ i := by omega
    have h2 : (2 : ℕ) ≠ i := by omega
    have h3 : (3 : ℕ) ≠ i := by omega
    simp [fixupFront, List.foldl, List.getD_eq_getElem?_getD, List.getElem?_set,
      h0, h1, h2, h3]
  · simp [fixupFront, List.foldl, List.length_set]

/-- C7: for a completed spectrum of length P ≥ 5, the fixup overwrites
indices 0-3 with the value originally assembled at index 4 and overwrites
index P−1 with the value then found at index P−2 (which, for P ≥ 6, is the
originally assembled value at P−2, and for P = 5 is the value at index 4
placed there by the first pass); every other index keeps its assembled
value, and the length stays P. -/
theorem spectrum_edge_fixup (P : ℕ) (s : List ℕ) (hlen : s.length = P) (hP : 5 ≤ P) :
    (fixup P s).length = P
    ∧ (∀ i, i < 4 → (fixup P s).getD i 0 = s.getD 4 0)
    ∧ (fixup P s).getD (P - 1) 0 = (if P - 2 < 4 then s.getD 4 0 else s.getD (P - 2) 0)
    ∧ (∀ i, 4 ≤ i → i < P - 1 → (fixup P s).getD i 0 = s.getD i 0) := by
  have hfront := fixupFront_getD s
  have hlen4 : 4 < s.length := by omega
  refine ⟨?_, ?_, ?_, ?_⟩
  · simp [fixup, List.length_set, hfront.2.2, hlen]
  · intro i hi
    have hne : P - 1 ≠ i := by omega
    rw [fixup, getD_set_ne _ _ hne]
    exact hfront.1 i hi hlen4
  · rw [fixup, getD_set_self _ _ _ (by rw [hfront.2.2]; omega)]
    by_cases hc : P - 2 < 4
    · rw [if_pos hc]
      exact hfront.1 (P - 2) hc hlen4
    · rw [if_neg hc]
      exact hfront.2.1 (P - 2) (by omega)
  · intro i hi4 hiP
    have hne : P - 1 ≠ i := by omega
    rw [fixup, getD_set_ne _ _ hne]
    exact hfront.2.1 i hi4

/-- C7 witness: fixing up the 7-pixel spectrum [10,20,30,40,50,60,70]
yields 50 (the original index-4 value) at indices 0-3, keeps 50 and 60 at
indices 4 and 5, and writes 60 (the original index-5 value) at index 6. -/
theorem spectrum_edge_fixup_witness :
    (fixup 7 [10, 20, 30, 40, 50, 60, 70]).getD 0 0 = 50
    ∧ (fixup 7 [10, 20, 30, 40, 50, 60, 70]).getD 6 0 = 60
    ∧ (fixup 7 [10, 20, 30, 40, 50, 60, 70]).getD 4 0 = 50
    ∧ (fixup 7 [10, 20, 30, 40, 50, 60, 70]).length = 7 := by
  have h := spectrum_edge_fixup 7 [10, 20, 30, 40, 50, 60, 70] rfl (by norm_num)
  refine ⟨?_, ?_, ?_, h.1⟩
  · have := h.2.1 0 (by norm_num)
    simpa using this
  · have := h.2.2.1
    norm_num at this
    simpa using this
  · have := h.2.2.2 4 (by norm_num) (by norm_num)
    simpa using this

/-! ## C3 — wavelength calibration -/

theorem wavecalAxis_length (e : EEPROM) :
    (wavecalAxis e).length = e.active_pixels_horizontal := by
  cases hc : e.wavelength_coeffs <;>
    simp only [wavecalAxis, hc, generate_wavelengths, List.length_map, List.length_range]

theorem wavecalAxis_getD_poly (e : EEPROM) (c : WavelengthCoeffs)
    (hc : e.wavelength_coeffs = some c) (x : ℕ) (hx : x < e.active_pixels_horizontal) :
    (wavecalAxis e).getD x 0
      = c.c0 + c.c1 * (x : ℚ) + c.c2 * (x : ℚ) * (x : ℚ)
        + c.c3 * (x : ℚ) * (x : ℚ) * (x : ℚ) := by
  simp only [wavecalAxis, hc, generate_wavelengths, List.getD_eq_getElem?_getD,
    List.getElem?_map, List.getElem?_range hx, Option.map_some', Option.getD_some]

theorem wavecalAxis_getD_id (e : EEPROM) (hc : e.wavelength_coeffs = none)
    (x : ℕ) (hx : x < e.active_pixels_horizontal) :
    (wavecalAxis e).getD x 0 = (x : ℚ) := by
  simp only [wavecalAxis, hc, List.getD_eq_getElem?_getD, List.getElem?_map,
    List.getElem?_range hx, Option.map_some', Option.getD_some]

theorem getD_map_rat (f : ℚ → ℚ) (l : List ℚ) (i : ℕ) (hi : i < l.length) :
    (l.map f).getD i 0 = f (l.getD i 0) := by
  simp only [List.getD_eq_getElem?_getD, List.getElem?_map, List.getElem?_eq_getElem hi,
    Option.map_some', Option.getD_some]

/-- C3: after `update_wavecal` with the lock flag clear and pixel count
P ≥ 1, the wavelength array has length exactly P; with the four wavelength
coefficients present, entry x is `c0 + c1·x + c2·x² + c3·x³` for every
x < P; with no coefficients present, entry x is the identity `x`. -/
theorem wavecal_wavelengths (s : SpectrometerSettings) (P : ℕ)
    (hlock : s.lock_wavecal = false) (hpix : s.eeprom.active_pixels_horizontal = P)
    (hP : 1 ≤ P) :
    ∃ wl, (update_wavecal s none).wavelengths = some wl
      ∧ wl.length = P
      ∧ (∀ c : WavelengthCoeffs, s.eeprom.wavelength_coeffs = some c →
          ∀ x, x < P → wl.getD x 0
            = c.c0 + c.c1 * (x : ℚ) + c.c2 * (x : ℚ) * (x : ℚ)
              + c.c3 * (x : ℚ) * (x : ℚ) * (x : ℚ))
      ∧ (s.eeprom.wavelength_coeffs = none → ∀ x, x < P → wl.getD x 0 = (x : ℚ)) := by
  subst hpix
  refine ⟨wavecalAxis s.eeprom, update_wavecal_wavelengths_eq s hlock (by omega),
    wavecalAxis_length s.eeprom, ?_, ?_⟩
  · intro c hc x hx
    exact wavecalAxis_getD_poly s.eeprom c hc x hx
  · intro hc x hx
    exact wavecalAxis_getD_id s.eeprom hc x hx

/-- C3 witness: 3 pixels with coefficients (100, 2, 0, 0) produce a
3-entry wavelength axis whose entry 1 is 100 + 2·1 = 102. -/
theorem wavecal_wavelengths_witness :
    ∃ wl, (update_wavecal (calSettings 3 (some ⟨100, 2, 0, 0⟩) 785 FloatVal.missing)
        none).wavelengths = some wl
      ∧ wl.length = 3 ∧ wl.getD 1 0 = 102 := by
  obtain ⟨wl, h1, h2, h3, _⟩ :=
    wavecal_wavelengths (calSettings 3 (some ⟨100, 2, 0, 0⟩) 785 FloatVal.missing) 3
      rfl rfl (by norm_num)
  refine ⟨wl, h1, h2, ?_⟩
  have h := h3 ⟨100, 2, 0, 0⟩ rfl 1 (by norm_num)
  rw [h]
  norm_num

/-! ## C4 — wavenumber calibration -/

/-- C4: after `update_wavecal` with the lock flag clear, the wavenumber
array is absent iff the reconciled excitation is ≤ 0 or the wavelength
array is empty (absent counts as empty); when present it has the same
length as the wavelength array and entry i equals
`1e7/excitation − 1e7/wavelengths[i]` where `wavelengths[i] ≠ 0` and 0
where `wavelengths[i] = 0`.  (The legacy excitation being an integer, a
positive reconciled excitation is never in (0, 1), so the `< 1` guard of
`generate_wavenumbers` coincides with `≤ 0` here.) -/
theorem wavecal_wavenumbers (s : SpectrometerSettings) (hlock : s.lock_wavecal = false) :
    ((update_wavecal s none).wavenumbers = none ↔
      ((excitation s.eeprom).1 ≤ 0 ∨ ((update_wavecal s none).wavelengths.getD [] = [])))
    ∧ (∀ wn, (update_wavecal s none).wavenumbers = some wn →
        ∃ wl, (update_wavecal s none).wavelengths = some wl
          ∧ wn.length = wl.length
          ∧ ∀ i, i < wl.length →
              wn.getD i 0 = if wl.getD i 0 ≠ 0
                then 10000000 / (excitation s.eeprom).1 - 10000000 / wl.getD i 0
                else 0) := by
  by_cases hpix : 1 ≤ s.eeprom.active_pixels_horizontal
  · have hwl := update_wavecal_wavelengths_eq s hlock hpix
    have hwn := update_wavecal_wavenumbers_eq s hlock hpix
    have haxlen := wavecalAxis_length s.eeprom
    have haxne : wavecalAxis s.eeprom ≠ [] := by
      intro h
      rw [h] at haxlen
      simp only [List.length_nil] at haxlen
      omega
    constructor
    · rw [hwn, hwl]
      by_cases hexc : 0 < (excitation s.eeprom).1
      · rw [if_pos hexc]
        simp [haxne, not_le.mpr hexc]
      · rw [if_neg hexc]
        simp [le_of_not_lt hexc]
    · intro wn hwn2
      rw [hwn] at hwn2
      by_cases hexc : 0 < (excitation s.eeprom).1
      · rw [if_pos hexc] at hwn2
        have hone : 1 ≤ (excitation s.eeprom).1 := excitation_pos_ge_one s.eeprom hexc
        have hnlt : ¬((excitation s.eeprom).1 < 1) := not_lt.mpr hone
        have hcond : ¬(wavecalAxis s.eeprom = [] ∨ (excitation s.eeprom).1 < 1) := by
          push_neg
          exact ⟨haxne, hone⟩
        injection hwn2 with hwn3
        refine ⟨wavecalAxis s.eeprom, hwl, ?_, ?_⟩
        · rw [← hwn3]
          simp only [generate_wavenumbers, if_neg hcond, List.length_map]
        · intro i hi
          rw [← hwn3]
          simp only [generate_wavenumbers, if_neg hcond]
          exact getD_map_rat _ _ i hi
      · rw [if_neg hexc] at hwn2
        exact absurd hwn2 (by simp)
  · have h0 : s.eeprom.active_pixels_horizontal < 1 := by omega
    have hstep : update_wavecal s none = { s with wavelengths := none, wavenumbers := none } := by
      simp [update_wavecal, hlock, h0]
    rw [hstep]
    constructor
    · simp
    · intro wn hwn2
      simp at hwn2

/-- C4 witness: 2 pixels, no coefficients (identity axis [0, 1]), legacy
excitation 785: the wavenumber array is present, and its entry 1 satisfies
the claimed formula 1e7/785 − 1e7/1 (entry 0 sits at wavelength 0 and is
0). -/
theorem wavecal_wavenumbers_witness :
    ∃ wl, (update_wavecal (calSettings 2 none 785 FloatVal.missing) none).wavelengths = some wl
      ∧ (2000000/157 - 10000000 : ℚ)
          = (if wl.getD 1 0 ≠ 0
             then 10000000 / (excitation (calSettings 2 none 785 FloatVal.missing).eeprom).1
               - 10000000 / wl.getD 1 0
             else 0) := by
  have hrfl : (calSettings 2 none 785 FloatVal.missing).eeprom
      = calEEPROM 2 none 785 FloatVal.missing := rfl
  have hexc : excitation (calEEPROM 2 none 785 FloatVal.missing) = (785, []) := by
    norm_num [excitation, calEEPROM]
  have hax : wavecalAxis (calEEPROM 2 none 785 FloatVal.missing) = [0, 1] := by
    norm_num [wavecalAxis, calEEPROM, List.range_succ, List.range_zero]
  have hsome : (update_wavecal (calSettings 2 none 785 FloatVal.missing) none).wavenumbers
      = some [0, 2000000/157 - 10000000] := by
    rw [update_wavecal_wavenumbers_eq _ rfl (by norm_num [calSettings, calEEPROM])]
    rw [hrfl, hexc, hax]
    norm_num [generate_wavenumbers]
    intro h
    simp at h
  obtain ⟨wl, hwl, hlen, hfor⟩ :=
    (wavecal_wavenumbers (calSettings 2 none 785 FloatVal.missing) rfl).2
      [0, 2000000/157 - 10000000] hsome
  refine ⟨wl, hwl, ?_⟩
  have h1 := hfor 1 (by rw [← hlen]; norm_num)
  simpa using h1

/-! ## C1 — retry bound and no partial spectrum -/

theorem loopGo_exit (pixels intTime : ℕ) (resps : List (List ℕ)) (st : LoopState)
    (hpx : pixels ≤ st.pixelsRead) :
    loopGo pixels intTime resps st
      = if 5 ≤ pixels then (Outcome.completed (fixup pixels st.spectrum), [])
        else (Outcome.indexError, []) := by
  cases resps <;> simp [loopGo, hpx]

theorem loopGo_abort (pixels intTime : ℕ) (resps : List (List ℕ)) (st : LoopState)
    (hpx : st.pixelsRead < pixels) (hr : st.requestRetry = true)
    (h4 : MAX_RETRIES ≤ st.retryCount) :
    loopGo pixels intTime resps st = (Outcome.failed, []) := by
  have habort : st.requestRetry ∧ MAX_RETRIES < retryAdvance st := by
    refine ⟨by simp [hr], ?_⟩
    simp only [retryAdvance, hr, if_true]
    omega
  cases resps <;> simp [loopGo, Nat.not_le.mpr hpx, habort]

theorem loopGo_nil (pixels intTime : ℕ) (st : LoopState)
    (hpx : st.pixelsRead < pixels)
    (hna : ¬(st.requestRetry ∧ MAX_RETRIES < retryAdvance st)) :
    loopGo pixels intTime [] st
      = (Outcome.outOfScript { st with retryCount := retryAdvance st, requestRetry := false },
         preEvents intTime st) := by
  simp [loopGo, Nat.not_le.mpr hpx, hna]

theorem loopGo_cons (pixels intTime : ℕ) (r : List ℕ) (rest : List (List ℕ)) (st : LoopState)
    (hpx : st.pixelsRead < pixels)
    (hna : ¬(st.requestRetry ∧ MAX_RETRIES < retryAdvance st)) :
    loopGo pixels intTime (r :: rest) st
      = ((loopGo pixels intTime rest (stepState pixels r st)).1,
         preEvents intTime st ++ [Ev.readResp]
           ++ (loopGo pixels intTime rest (stepState pixels r st)).2) := by
  by_cases hb : r.length < 2 ∨ r.length % 2 = 1
  · have hb' : r.length < 2 ∨ r.length % 2 ≠ 0 := by omega
    simp [loopGo, stepState, Nat.not_le.mpr hpx, hna, hb, hb', List.append_assoc]
  · have hb' : ¬(r.length < 2 ∨ r.length % 2 ≠ 0) := by omega
    by_cases hf : 2048 < firstPixel r
    · simp [loopGo, stepState, Nat.not_le.mpr hpx, hna, hb, hb', hf, List.append_assoc]
    · simp [loopGo, stepState, Nat.not_le.mpr hpx, hna, hb, hb', hf, List.append_assoc]

theorem stepState_retryCount (pixels : ℕ) (r : List ℕ) (st : LoopState) :
    (stepState pixels r st).retryCount = retryAdvance st := by
  simp only [stepState]
  split_ifs <;> rfl

/-- Induction over a byte list two bytes at a time. -/
theorem byteList_twoStep {P : List ℕ → Prop} (h0 : P []) (h1 : ∀ a, P [a])
    (h2 : ∀ a b t, P t → P (a :: b :: t)) : ∀ l, P l := by
  have H : ∀ n l, List.length l ≤ n → P l := by
    intro n
    induction n with
    | zero =>
      intro l hl
      cases l with
      | nil => exact h0
      | cons a t => simp at hl
    | succ n ih =>
      intro l hl
      rcases l with _ | ⟨a, _ | ⟨b, t⟩⟩
      · exact h0
      · exact h1 a
      · refine h2 a b t (ih t ?_)
        simp only [List.length_cons] at hl
        omega
  intro l
  exact H l.length l le_rfl

theorem writeRun_length (pixels : ℕ) :
    ∀ bytes spec pr, ((writeRun pixels bytes spec pr).1).length = spec.length := by
  refine byteList_twoStep ?_ ?_ ?_
  · intro spec pr
    simp [writeRun]
  · intro a spec pr
    simp [writeRun]
  · intro a b t ih spec pr
    simp only [writeRun]
    split
    · simp [List.length_set]
    · rw [ih]
      simp [List.length_set]

theorem writeRun_bounds (pixels : ℕ) :
    ∀ bytes spec pr, pr < pixels →
      pr ≤ (writeRun pixels bytes spec pr).2 ∧ (writeRun pixels bytes spec pr).2 ≤ pixels := by
  refine byteList_twoStep ?_ ?_ ?_
  · intro spec pr h
    simp [writeRun]
    omega
  · intro a spec pr h
    simp [writeRun]
    omega
  · intro a b t ih spec pr h
    simp only [writeRun]
    split
    case isTrue he =>
      simp only []
      omega
    case isFalse he =>
      have hlt : pr + 1 < pixels := by omega
      have := ih (spec.set pr (Nat.lor (Nat.shiftLeft b 8) a)) (pr + 1) hlt
      exact ⟨by omega, this.2⟩

theorem writeRun_lockstep (pixels : ℕ) :
    ∀ bytes s₁ s₂ pr, s₁.length = pixels → s₂.length = pixels → pr < pixels →
      (∀ i, i < pr → s₁.getD i 0 = s₂.getD i 0) →
      (writeRun pixels bytes s₁ pr).2 = (writeRun pixels bytes s₂ pr).2
      ∧ (∀ i, i < (writeRun pixels bytes s₁ pr).2 →
          (writeRun pixels bytes s₁ pr).1.getD i 0 = (writeRun pixels bytes s₂ pr).1.getD i 0) := by
  refine byteList_twoStep ?_ ?_ ?_
  · intro s₁ s₂ pr h1 h2 hpr hag
    simp only [writeRun]
    exact ⟨trivial, hag⟩
  · intro a s₁ s₂ pr h1 h2 hpr hag
    simp only [writeRun]
    exact ⟨trivial, hag⟩
  · intro a b t ih s₁ s₂ pr h1 h2 hpr hag
    have hagset : ∀ i, i < pr + 1 →
        (s₁.set pr (Nat.lor (Nat.shiftLeft b 8) a)).getD i 0
          = (s₂.set pr (Nat.lor (Nat.shiftLeft b 8) a)).getD i 0 := by
      intro i hi
      by_cases hip : i = pr
      · subst hip
        rw [getD_set_self _ _ _ (by omega), getD_set_self _ _ _ (by omega)]
      · have hilt : i < pr := by omega
        rw [getD_set_ne _ _ (by omega : pr ≠ i), getD_set_ne _ _ (by omega : pr ≠ i)]
        exact hag i hilt
    simp only [writeRun]
    split
    case isTrue he =>
      exact ⟨rfl, fun i hi => hagset i hi⟩
    case isFalse he =>
      have hlt : pr + 1 < pixels := by omega
      exact ih (s₁.set pr (Nat.lor (Nat.shiftLeft b 8) a))
        (s₂.set pr (Nat.lor (Nat.shiftLeft b 8) a)) (pr + 1)
        (by rw [List.length_set, h1]) (by rw [List.length_set, h2]) hlt hagset

theorem countRetry_append (a b : List Ev) :
    countRetry (a ++ b) = countRetry a + countRetry b :=
  List.countP_append _ _ _

theorem countRetry_preEvents (intTime : ℕ) (st : LoopState) :
    countRetry (preEvents intTime st) = if st.requestRetry then 1 else 0 := by
  cases hr : st.requestRetry <;>
    simp [preEvents, countRetry, List.countP_cons, List.countP_nil, isRetryEv, hr]

theorem fixup_length (P : ℕ) (s : List ℕ) : (fixup P s).length = s.length := by
  simp [fixup, List.length_set, (fixupFront_getD s).2.2]

theorem list_eq_of_getD (l₁ l₂ : List ℕ) (hl : l₁.length = l₂.length)
    (h : ∀ i, i < l₁.length → l₁.getD i 0 = l₂.getD i 0) : l₁ = l₂ := by
  apply List.ext_getElem?
  intro n
  by_cases hn : n < l₁.length
  · have hn₂ : n < l₂.length := by omega
    rw [List.getElem?_eq_getElem hn, List.getElem?_eq_getElem hn₂]
    have hgd := h n hn
    rw [List.getD_eq_getElem?_getD, List.getD_eq_getElem?_getD,
      List.getElem?_eq_getElem hn, List.getElem?_eq_getElem hn₂] at hgd
    simpa using hgd
  · rw [List.getElem?_eq_none (by omega), List.getElem?_eq_none (by omega)]

theorem stepState_spectrum_length (pixels : ℕ) (r : List ℕ) (st : LoopState) :
    (stepState pixels r st).spectrum.length = st.spectrum.length := by
  simp only [stepState]
  split_ifs <;> simp [writeRun_length]

theorem loopGo_retry_bound (pixels intTime : ℕ) :
    ∀ (resps : List (List ℕ)) (st : LoopState),
      countRetry (loopGo pixels intTime resps st).2 ≤ MAX_RETRIES - st.retryCount := by
  intro resps
  induction resps with
  | nil =>
    intro st
    by_cases hpx : pixels ≤ st.pixelsRead
    · rw [loopGo_exit pixels intTime [] st hpx]
      split <;> simp [countRetry]
    · by_cases hna : st.requestRetry ∧ MAX_RETRIES < retryAdvance st
      · cases hr : st.requestRetry
        · rw [hr] at hna
          simp at hna
        · have h5 := hna.2
          simp only [retryAdvance, hr, if_true] at h5
          rw [loopGo_abort pixels intTime [] st (by omega) hr (by omega)]
          simp [countRetry]
      · rw [loopGo_nil pixels intTime st (by omega) hna]
        rw [countRetry_preEvents]
        cases hr : st.requestRetry
        · simp
        · have hle : retryAdvance st ≤ MAX_RETRIES := by
            by_contra hgt
            exact hna ⟨by simp [hr], by omega⟩
          simp only [retryAdvance, hr, if_true] at hle
          simp only [if_true]
          omega
  | cons r rest ih =>
    intro st
    by_cases hpx : pixels ≤ st.pixelsRead
    · rw [loopGo_exit pixels intTime (r :: rest) st hpx]
      split <;> simp [countRetry]
    · by_cases hna : st.requestRetry ∧ MAX_RETRIES < retryAdvance st
      · cases hr : st.requestRetry
        · rw [hr] at hna
          simp at hna
        · have h5 := hna.2
          simp only [retryAdvance, hr, if_true] at h5
          rw [loopGo_abort pixels intTime (r :: rest) st (by omega) hr (by omega)]
          simp [countRetry]
      · rw [loopGo_cons pixels intTime r rest st (by omega) hna]
        simp only [countRetry_append, countRetry_preEvents]
        have hread : countRetry [Ev.readResp] = 0 := by
          simp [countRetry, List.countP_cons, List.countP_nil, isRetryEv]
        rw [hread]
        have hih := ih (stepState pixels r st)
        rw [stepState_retryCount] at hih
        cases hr : st.requestRetry
        · simp only [hr, if_false, Bool.false_eq_true]
          simp only [retryAdvance, hr, Bool.false_eq_true, if_false] at hih
          omega
        · have hle : retryAdvance st ≤ MAX_RETRIES := by
            by_contra hgt
            exact hna ⟨by simp [hr], by omega⟩
          simp only [retryAdvance, hr, if_true] at hih hle
          simp only [if_true]
          omega

theorem loopGo_completed_length (pixels intTime : ℕ) :
    ∀ (resps : List (List ℕ)) (st : LoopState) (spec : List ℕ),
      st.spectrum.length = pixels →
      (loopGo pixels intTime resps st).1 = Outcome.completed spec →
      spec.length = pixels := by
  intro resps
  induction resps with
  | nil =>
    intro st spec hlen hc
    by_cases hpx : pixels ≤ st.pixelsRead
    · rw [loopGo_exit pixels intTime [] st hpx] at hc
      split at hc
      · simp only [Prod.fst] at hc
        injection hc with hc
        rw [← hc, fixup_length, hlen]
      · simp at hc
    · by_cases hna : st.requestRetry ∧ MAX_RETRIES < retryAdvance st
      · cases hr : st.requestRetry
        · rw [hr] at hna
          simp at hna
        · have h5 := hna.2
          simp only [retryAdvance, hr, if_true] at h5
          rw [loopGo_abort pixels intTime [] st (by omega) hr (by omega)] at hc
          simp at hc
      · rw [loopGo_nil pixels intTime st (by omega) hna] at hc
        simp at hc
  | cons r rest ih =>
    intro st spec hlen hc
    by_cases hpx : pixels ≤ st.pixelsRead
    · rw [loopGo_exit pixels intTime (r :: rest) st hpx] at hc
      split at hc
      · simp only [Prod.fst] at hc
        injection hc with hc
        rw [← hc, fixup_length, hlen]
      · simp at hc
    · by_cases hna : st.requestRetry ∧ MAX_RETRIES < retryAdvance st
      · cases hr : st.requestRetry
        · rw [hr] at hna
          simp at hna
        · have h5 := hna.2
          simp only [retryAdvance, hr, if_true] at h5
          rw [loopGo_abort pixels intTime (r :: rest) st (by omega) hr (by omega)] at hc
          simp at hc
      · rw [loopGo_cons pixels intTime r rest st (by omega) hna] at hc
        simp only [Prod.fst] at hc
        refine ih (stepState pixels r st) spec ?_ hc
        rw [stepState_spectrum_length, hlen]

theorem loopGo_lockstep (pixels intTime : ℕ) :
    ∀ (resps : List (List ℕ)) (st₁ st₂ : LoopState) (spec : List ℕ),
      st₁.pixelsRead = st₂.pixelsRead → st₁.retryCount = st₂.retryCount →
      st₁.requestRetry = st₂.requestRetry →
      st₁.spectrum.length = pixels → st₂.spectrum.length = pixels →
      (∀ i, i < st₁.pixelsRead → st₁.spectrum.getD i 0 = st₂.spectrum.getD i 0) →
      (loopGo pixels intTime resps st₁).1 = Outcome.completed spec →
      (loopGo pixels intTime resps st₂).1 = Outcome.completed spec := by
  intro resps
  induction resps with
  | nil =>
    intro st₁ st₂ spec hpr hrc hrr hl₁ hl₂ hag hc
    by_cases hpx : pixels ≤ st₁.pixelsRead
    · have hpx₂ : pixels ≤ st₂.pixelsRead := hpr ▸ hpx
      rw [loopGo_exit pixels intTime [] st₁ hpx] at hc
      rw [loopGo_exit pixels intTime [] st₂ hpx₂]
      have hspec : st₁.spectrum = st₂.spectrum := by
        refine list_eq_of_getD _ _ (by omega) ?_
        intro i hi
        exact hag i (by omega)
      rw [← hspec]
      exact hc
    · by_cases hna : st₁.requestRetry ∧ MAX_RETRIES < retryAdvance st₁
      · cases hr : st₁.requestRetry
        · rw [hr] at hna
          simp at hna
        · have h5 := hna.2
          simp only [retryAdvance, hr, if_true] at h5
          rw [loopGo_abort pixels intTime [] st₁ (by omega) hr (by omega)] at hc
          simp at hc
      · rw [loopGo_nil pixels intTime st₁ (by omega) hna] at hc
        simp at hc
  | cons r rest ih =>
    intro st₁ st₂ spec hpr hrc hrr hl₁ hl₂ hag hc
    by_cases hpx : pixels ≤ st₁.pixelsRead
    · have hpx₂ : pixels ≤ st₂.pixelsRead := hpr ▸ hpx
      rw [loopGo_exit pixels intTime (r :: rest) st₁ hpx] at hc
      rw [loopGo_exit pixels intTime (r :: rest) st₂ hpx₂]
      have hspec : st₁.spectrum = st₂.spectrum := by
        refine list_eq_of_getD _ _ (by omega) ?_
        intro i hi
        exact hag i (by omega)
      rw [← hspec]
      exact hc
    · have hpx₂ : st₂.pixelsRead < pixels := by omega
      have hadv : retryAdvance st₁ = retryAdvance st₂ := by
        simp only [retryAdvance, hrr, hrc]
      by_cases hna : st₁.requestRetry ∧ MAX_RETRIES < retryAdvance st₁
      · cases hr : st₁.requestRetry
        · rw [hr] at hna
          simp at hna
        · have h5 := hna.2
          simp only [retryAdvance, hr, if_true] at h5
          rw [loopGo_abort pixels intTime (r :: rest) st₁ (by omega) hr (by omega)] at hc
          simp at hc
      · have hna₂ : ¬(st₂.requestRetry ∧ MAX_RETRIES < retryAdvance st₂) := by
          rw [← hrr, ← hadv]
          exact hna
        rw [loopGo_cons pixels intTime r rest st₁ (by omega) hna] at hc
        rw [loopGo_cons pixels intTime r rest st₂ hpx₂ hna₂]
        simp only [Prod.fst] at hc ⊢
        by_cases hb : r.length < 2 ∨ r.length % 2 ≠ 0
        · have hs₁ : stepState pixels r st₁
              = { st₁ with retryCount := retryAdvance st₁, requestRetry := true } := by
            simp only [stepState, hb, if_true]
          have hs₂ : stepState pixels r st₂
              = { st₂ with retryCount := retryAdvance st₂, requestRetry := true } := by
            simp only [stepState, hb, if_true]
          rw [hs₁] at hc
          rw [hs₂]
          refine ih _ _ spec ?_ ?_ ?_ ?_ ?_ ?_ hc
          · exact hpr
          · exact hadv
          · rfl
          · exact hl₁
          · exact hl₂
          · exact hag
        · by_cases hf : 2048 < firstPixel r ∨ firstPixel r < 0
          · have hs₁ : stepState pixels r st₁
                = { st₁ with retryCount := retryAdvance st₁, requestRetry := true } := by
              simp only [stepState, hb, if_false, hf, if_true]
            have hs₂ : stepState pixels r st₂
                = { st₂ with retryCount := retryAdvance st₂, requestRetry := true } := by
              simp only [stepState, hb, if_false, hf, if_true]
            rw [hs₁] at hc
            rw [hs₂]
            refine ih _ _ spec ?_ ?_ ?_ ?_ ?_ ?_ hc
            · exact hpr
            · exact hadv
            · rfl
            · exact hl₁
            · exact hl₂
            · exact hag
          · have hw := writeRun_lockstep pixels (r.drop 2) st₁.spectrum st₂.spectrum
              st₁.pixelsRead hl₁ hl₂ (by omega) (fun i hi => hag i hi)
            have hs₁ : stepState pixels r st₁
                = { spectrum := (writeRun pixels (r.drop 2) st₁.spectrum st₁.pixelsRead).1,
                    pixelsRead := (writeRun pixels (r.drop 2) st₁.spectrum st₁.pixelsRead).2,
                    retryCount := retryAdvance st₁, requestRetry := false } := by
              simp only [stepState, hb, if_false, hf]
            have hs₂ : stepState pixels r st₂
                = { spectrum := (writeRun pixels (r.drop 2) st₂.spectrum st₂.pixelsRead).1,
                    pixelsRead := (writeRun pixels (r.drop 2) st₂.spectrum st₂.pixelsRead).2,
                    retryCount := retryAdvance st₂, requestRetry := false } := by
              simp only [stepState, hb, if_false, hf]
            rw [hs₁] at hc
            rw [hs₂, ← hpr]
            refine ih _ _ spec ?_ ?_ ?_ ?_ ?_ ?_ hc
            · exact hw.1
            · exact hadv
            · rfl
            · rw [writeRun_length]
              exact hl₁
            · rw [writeRun_length]
              exact hl₂
            · intro i hi
              exact hw.2 i hi

/-- C1: (i) a run of the acquisition loop from its initial state performs
at most `MAX_RETRIES` = 4 retry rounds; (ii) whenever a retry is pending
and the retry count is already at the maximum (so the increment would
exceed 4), the loop aborts at once with the failure result and performs no
further I/O; (iii) a completed run returns a spectrum of exactly the
configured pixel count in which every pixel was written: the completed
result is identical for every initial spectrum buffer of that length, so
no unwritten (initial) cell ever reaches the caller. -/
theorem ble_retry_bound_full_spectrum (pixels intTime : ℕ) (resps : List (List ℕ)) :
    countRetry (bleAcquireLoop pixels intTime resps).2 ≤ MAX_RETRIES
    ∧ (∀ st : LoopState, st.pixelsRead < pixels → st.requestRetry = true →
        MAX_RETRIES ≤ st.retryCount →
        loopGo pixels intTime resps st = (Outcome.failed, []))
    ∧ (∀ spec, (bleAcquireLoop pixels intTime resps).1 = Outcome.completed spec →
        spec.length = pixels
        ∧ ∀ init : List ℕ, init.length = pixels →
            (loopGo pixels intTime resps
              { spectrum := init, pixelsRead := 0, retryCount := 0, requestRetry := false }).1
              = Outcome.completed spec) := by
  refine ⟨?_, ?_, ?_⟩
  · have h := loopGo_retry_bound pixels intTime resps
      { spectrum := List.replicate pixels 0, pixelsRead := 0, retryCount := 0,
        requestRetry := false }
    simpa [bleAcquireLoop] using h
  · intro st h1 h2 h3
    exact loopGo_abort pixels intTime resps st h1 h2 h3
  · intro spec hc
    constructor
    · exact loopGo_completed_length pixels intTime resps _ spec (by simp [bleAcquireLoop]) hc
    · intro init hlen
      exact loopGo_lockstep pixels intTime resps
        { spectrum := List.replicate pixels 0, pixelsRead := 0, retryCount := 0,
          requestRetry := false }
        { spectrum := init, pixelsRead := 0, retryCount := 0, requestRetry := false }
        spec rfl rfl rfl (by simp) (by simpa using hlen)
        (fun i hi => absurd hi (Nat.not_lt_zero i)) hc

/-- C1 witness: with 6 pixels, a pending retry at count 4 aborts with
failure and an empty trace; a run over six malformed responses performs at
most 4 retries; and the completed run over one valid packet returns the
same 6-pixel spectrum when the buffer is initialised with 9s instead of
0s. -/
theorem ble_retry_bound_full_spectrum_witness :
    loopGo 6 7 []
      { spectrum := [0, 0, 0, 0, 0, 0], pixelsRead := 0, retryCount := 4, requestRetry := true }
      = (Outcome.failed, [])
    ∧ countRetry (bleAcquireLoop 6 7 [[1], [1], [1], [1], [1], [1]]).2 ≤ MAX_RETRIES
    ∧ (loopGo 6 7 [[0, 0, 10, 0, 20, 0, 30, 0, 40, 0, 50, 0, 60, 0]]
        { spectrum := [9, 9, 9, 9, 9, 9], pixelsRead := 0, retryCount := 0,
          requestRetry := false }).1
      = Outcome.completed [50, 50, 50, 50, 50, 50] := by
  refine ⟨?_, ?_, ?_⟩
  · exact (ble_retry_bound_full_spectrum 6 7 []).2.1 _ (by decide) rfl (by decide)
  · exact (ble_retry_bound_full_spectrum 6 7 [[1], [1], [1], [1], [1], [1]]).1
  · have hc : (bleAcquireLoop 6 7 [[0, 0, 10, 0, 20, 0, 30, 0, 40, 0, 50, 0, 60, 0]]).1
        = Outcome.completed [50, 50, 50, 50, 50, 50] := by decide
    exact ((ble_retry_bound_full_spectrum 6 7 _).2.2 _ hc).2 [9, 9, 9, 9, 9, 9] (by decide)
